import Mathlib

/-!
Verification of the XRotor aerodynamic section model and polar-fitting engine
(`src/xrotor/model.py`) against its natural-language specification.

The Python source is shallowly embedded:
* the `Section` attribute bag becomes a Lean structure with real-valued fields;
* `Section.__init__`, which fills unsupplied positional arguments and the four
  keyword arguments with `0.`, becomes `mkSection`;
* the pure evaluators `cl_lin`, `delta_cl_nl`, `cl`, `cd_lin`, `delta_cd_nl`,
  `cd` become real-valued functions (Python float math is modelled over `ℝ`);
* Python float division, which raises `ZeroDivisionError` on a zero
  denominator, is additionally modelled by fallible (`Option`-valued)
  evaluators built on `fdiv`;
* `fit_polar` is embedded with its two external numerical routines
  (`scipy.optimize.minimize` and `scipy.optimize.newton`) abstracted as
  function parameters, the polar table as a list of rows of rationals, and
  numpy column indexing made fallible (out-of-bounds access raises in the
  source, hence returns `none` here).
-/

namespace XRotor

/-- Aerodynamic section definition: the thirteen parameter fields of the
Python `Section` class, in source order. -/
structure Section where
  a_0 : ℝ
  dClda : ℝ
  Cl_max : ℝ
  Cl_min : ℝ
  dClda_stall : ℝ
  dCl_stall : ℝ
  Cd_min : ℝ
  Cl_Cd_min : ℝ
  dCddCl2 : ℝ
  Cm_const : ℝ
  M_crit : ℝ
  Re : ℝ
  Re_exp : ℝ

/-- Embedding of `Section.__init__`: the first nine positional arguments fill
the fitted parameters (each defaulting to `0.` when absent), and the four
keyword arguments `Cm_const`, `M_crit`, `Re`, `Re_exp` default to `0.` when
not supplied. Construction performs no validation and is total. -/
def mkSection (args : List ℝ) (cmc mcr rre rxp : Option ℝ) : Section :=
  Section.mk (args.getD 0 0) (args.getD 1 0) (args.getD 2 0) (args.getD 3 0)
    (args.getD 4 0) (args.getD 5 0) (args.getD 6 0) (args.getD 7 0)
    (args.getD 8 0) (cmc.getD 0) (mcr.getD 0) (rre.getD 0) (rxp.getD 0)

/-- Embedding of `Section.cl_lin`: `(alpha - self.a_0) * np.pi / 180. * self.dClda`. -/
noncomputable def Section.cl_lin (s : Section) (alpha : ℝ) : ℝ :=
  (alpha - s.a_0) * Real.pi / 180 * s.dClda

/-- Embedding of `Section.delta_cl_nl`, the smooth stall-blend offset. -/
noncomputable def Section.delta_cl_nl (s : Section) (alpha : ℝ) : ℝ :=
  s.dCl_stall * Real.log ((1 + Real.exp ((s.cl_lin alpha - s.Cl_max) / s.dCl_stall)) /
    (1 + Real.exp ((s.Cl_min - s.cl_lin alpha) / s.dCl_stall)))

/-- Embedding of `Section.cl`:
`self.cl_lin(alpha) - (1 - self.dClda_stall / self.dClda) * self.delta_cl_nl(alpha)`. -/
noncomputable def Section.cl (s : Section) (alpha : ℝ) : ℝ :=
  s.cl_lin alpha - (1 - s.dClda_stall / s.dClda) * s.delta_cl_nl alpha

/-- Embedding of `Section.cd_lin`:
`self.Cd_min + self.dCddCl2 * (self.cl(alpha) - self.Cl_Cd_min) ** 2`. -/
noncomputable def Section.cd_lin (s : Section) (alpha : ℝ) : ℝ :=
  s.Cd_min + s.dCddCl2 * (s.cl alpha - s.Cl_Cd_min) ^ 2

/-- Embedding of `Section.delta_cd_nl`:
`2 * ((1 - self.dClda_stall / self.dClda) * self.delta_cl_nl(alpha) / self.dClda) ** 2`. -/
noncomputable def Section.delta_cd_nl (s : Section) (alpha : ℝ) : ℝ :=
  2 * ((1 - s.dClda_stall / s.dClda) * s.delta_cl_nl alpha / s.dClda) ^ 2

/-- Embedding of `Section.cd`: `self.cd_lin(alpha) + self.delta_cd_nl(alpha)`. -/
noncomputable def Section.cd (s : Section) (alpha : ℝ) : ℝ :=
  s.cd_lin alpha + s.delta_cd_nl alpha

/-!
State-passing views of the six evaluator methods. A Python instance method
receives `self` as its state; none of the six evaluator bodies contains an
attribute assignment, so the post-call state is the received state. Each
`...Run` function returns the method's value together with the post-call
state of the `Section`.
-/

/-- Method call `self.cl_lin(alpha)` with its post-call instance state. -/
noncomputable def Section.cl_linRun (s : Section) (alpha : ℝ) : ℝ × Section :=
  (s.cl_lin alpha, s)

/-- Method call `self.delta_cl_nl(alpha)` with its post-call instance state. -/
noncomputable def Section.delta_cl_nlRun (s : Section) (alpha : ℝ) : ℝ × Section :=
  (s.delta_cl_nl alpha, s)

/-- Method call `self.cl(alpha)` with its post-call instance state. -/
noncomputable def Section.clRun (s : Section) (alpha : ℝ) : ℝ × Section :=
  (s.cl alpha, s)

/-- Method call `self.cd_lin(alpha)` with its post-call instance state. -/
noncomputable def Section.cd_linRun (s : Section) (alpha : ℝ) : ℝ × Section :=
  (s.cd_lin alpha, s)

/-- Method call `self.delta_cd_nl(alpha)` with its post-call instance state. -/
noncomputable def Section.delta_cd_nlRun (s : Section) (alpha : ℝ) : ℝ × Section :=
  (s.delta_cd_nl alpha, s)

/-- Method call `self.cd(alpha)` with its post-call instance state. -/
noncomputable def Section.cdRun (s : Section) (alpha : ℝ) : ℝ × Section :=
  (s.cd alpha, s)

/-- Python float division: raises `ZeroDivisionError` when the denominator is
zero, hence `none` there. -/
noncomputable def fdiv (x y : ℝ) : Option ℝ :=
  if y = 0 then none else some (x / y)

/-- Fallible embedding of `Section.delta_cl_nl`, tracking the two divisions by
`self.dCl_stall` that raise in Python when `dCl_stall == 0`. The final
division by `1 + exp(..)` cannot raise, its denominator being `> 1`. -/
noncomputable def Section.delta_cl_nlChecked (s : Section) (alpha : ℝ) : Option ℝ := do
  let t1 ← fdiv (s.cl_lin alpha - s.Cl_max) s.dCl_stall
  let t2 ← fdiv (s.Cl_min - s.cl_lin alpha) s.dCl_stall
  pure (s.dCl_stall * Real.log ((1 + Real.exp t1) / (1 + Real.exp t2)))

/-- Fallible embedding of `Section.cl`, tracking the unguarded division
`self.dClda_stall / self.dClda` that raises in Python when `dClda == 0`. -/
noncomputable def Section.clChecked (s : Section) (alpha : ℝ) : Option ℝ := do
  let r ← fdiv s.dClda_stall s.dClda
  let d ← s.delta_cl_nlChecked alpha
  pure (s.cl_lin alpha - (1 - r) * d)

/-!
Embedding of `Section.fit_polar`. The polar table is a list of rows of
rationals (exact stand-ins for the float table entries). The two external
scipy routines are abstracted as explicit arguments: `minimize` receives the
scalar error function, the initial guess and the box bounds; `newton`
receives the function, the starting point and the analytic derivative.
-/

/-- Arithmetic mean over `ℝ`, the meaning of `np.mean` on a float column. -/
noncomputable def meanR (l : List ℝ) : ℝ := l.sum / l.length

/-- Arithmetic mean over `ℚ`. -/
def meanQ (l : List ℚ) : ℚ := l.sum / l.length

/-- The `Section(*x)` call inside the error function: the nine optimization
variables fill the positional parameters, all keyword parameters default. -/
noncomputable def sectionOfParams (x : Fin 9 → ℝ) : Section :=
  mkSection ((List.finRange 9).map x) none none none none

/-- Embedding of the inner error function `e` of `fit_polar`:
`np.sqrt(np.mean((Section(*x).cl(a) - cl) ** 2)) + np.sqrt(np.mean((Section(*x).cd(a) - cd) ** 2))`. -/
noncomputable def fitError (a cl cd : List ℚ) (x : Fin 9 → ℝ) : ℝ :=
  Real.sqrt (meanR (List.zipWith
      (fun ai ci => ((sectionOfParams x).cl ai - ci) ^ 2)
      (a.map (fun q => (q : ℝ))) (cl.map (fun q => (q : ℝ))))) +
  Real.sqrt (meanR (List.zipWith
      (fun ai ci => ((sectionOfParams x).cd ai - ci) ^ 2)
      (a.map (fun q => (q : ℝ))) (cd.map (fun q => (q : ℝ)))))

/-- The initial guess `np.ones(9)` passed to the optimizer. -/
def fitStart : Fin 9 → ℝ := fun _ => 1

/-- The box bounds passed to the optimizer, in source order. -/
noncomputable def fitBounds : List (ℝ × ℝ) :=
  [(-10, 10), (1, 20), (0, 3), (-3, 0), (-2, 2), (0.1, 0.3), (0, 0.5), (-1, 1), (0, 1)]

/-- Type of the abstracted `scipy.optimize.minimize` call: error function,
initial guess, box bounds, returning the argmin vector `res.x`. -/
def MinimizeT : Type :=
  ((Fin 9 → ℝ) → ℝ) → (Fin 9 → ℝ) → List (ℝ × ℝ) → (Fin 9 → ℝ)

/-- Type of the abstracted `scipy.optimize.newton` call: function, starting
point, analytic derivative, returning the root estimate. -/
def NewtonT : Type := (ℝ → ℝ) → ℝ → (ℝ → ℝ) → ℝ

/-- Number of columns of the table, `polar.shape[1]` (numpy arrays are
rectangular; rectangularity is a hypothesis where theorems need it). -/
def ncols (polar : List (List ℚ)) : ℕ := (polar.headD []).length

/-- Column `j` of the table as numpy would deliver it, assuming it exists. -/
def colD (polar : List (List ℚ)) (j : ℕ) : List ℚ :=
  polar.map (fun r => r.getD j 0)

/-- Fallible column access `polar[:, j]`: numpy raises `IndexError` when `j`
is out of bounds, hence `none` there. -/
def getCol (polar : List (List ℚ)) (j : ℕ) : Option (List ℚ) :=
  if ∀ r ∈ polar, j < r.length then some (colD polar j) else none

/-- Index of the first occurrence of `v` in a list, the index that
`np.unique(.., return_index=True)` reports for a value it keeps. -/
def firstIdx (v : ℚ) : List ℚ → ℕ
  | [] => 0
  | x :: xs => if x = v then 0 else firstIdx v xs + 1

/-- The sorted distinct values returned by `np.unique`. -/
def npUniqueVals (xs : List ℚ) : List ℚ :=
  List.insertionSort (fun p q => p ≤ q) xs.dedup

/-- Embedding of `np.interp(x, xp, fp)` for increasing knots `xp`: clamped at
the ends, linear between bracketing knots. -/
def npInterp (x : ℚ) : List ℚ → List ℚ → ℚ
  | x0 :: x1 :: xs, f0 :: f1 :: fs =>
    if x ≤ x0 then f0
    else if x ≤ x1 then f0 + (f1 - f0) * (x - x0) / (x1 - x0)
    else npInterp x (x1 :: xs) (f1 :: fs)
  | _ :: _, f0 :: _ => f0
  | _, _ => 0

/-- The pressure-coefficient estimate of `fit_polar`:
`a_unique, indices = np.unique(polar[:, 0], return_index=True)` followed by
`cp = np.interp(0., a_unique, polar[indices, 5])`, expressed on the angle
column `a` and the column `c5` the indices are applied to. -/
def cpOfCols (a c5 : List ℚ) : ℚ :=
  npInterp 0 (npUniqueVals a) ((npUniqueVals a).map (fun v => c5.getD (firstIdx v a) 0))

/-- Ratio of specific heats, `gamma = 1.4` in `fit_polar`. -/
noncomputable def gammaAir : ℝ := 1.4

/-- Embedding of the inner function `f(M)` of `fit_polar`, whose root is the
critical Mach number for pressure coefficient `cp`. -/
noncomputable def critMachF (cp M : ℝ) : ℝ :=
  ((2 / (gammaAir * M ^ 2)) *
    (((gammaAir + 1) / (2 * (1 + 0.5 * (gammaAir - 1) * M ^ 2))) ^ (gammaAir / (1 - gammaAir)) - 1)) - cp

/-- Embedding of the inner function `df(M)` of `fit_polar`, the analytic
derivative handed to the root-finder. -/
noncomputable def critMachDf (_cp M : ℝ) : ℝ :=
  ((-4 / (gammaAir * M ^ 3)) *
    (((gammaAir + 1) / (2 * (1 + 0.5 * (gammaAir - 1) * M ^ 2))) ^ (gammaAir / (1 - gammaAir)) - 1)) +
  (-(2 / (gammaAir * M ^ 2)) * (gammaAir / (1 - gammaAir)) *
    ((gammaAir + 1) / (2 * (1 + 0.5 * (gammaAir - 1) * M ^ 2))) ^ (gammaAir / (1 - gammaAir) - 1) *
    ((gammaAir + 1) / (2 * (1 + 0.5 * (gammaAir - 1) * M ^ 2)) ^ 2) * 2 * (gammaAir - 1) * M)

/-- Embedding of `Section.fit_polar`, following the source line by line:
extract the first three columns, minimize the error function from the
all-ones start under the box bounds, take the pressure branch exactly when
the table has nine columns (reading column index 5 there, root-finding from
`M = 1`), otherwise default `M_crit` to `0.6`, and build the result with
`Cm_const` the mean of column index 4. Out-of-bounds column access is the
only failure, as in the source. -/
noncomputable def Section.fit_polar (minimize : MinimizeT) (newton : NewtonT)
    (polar : List (List ℚ)) : Option Section := do
  let a ← getCol polar 0
  let cl ← getCol polar 1
  let cd ← getCol polar 2
  let x := minimize (fitError a cl cd) fitStart fitBounds
  let mcrit ← (if ncols polar = 9 then do
      let c5 ← getCol polar 5
      pure (newton (critMachF ((cpOfCols a c5 : ℚ) : ℝ)) 1
        (critMachDf ((cpOfCols a c5 : ℚ) : ℝ)))
    else
      pure ((0.6 : ℝ)))
  let cm ← getCol polar 4
  pure (mkSection ((List.finRange 9).map x) (some ((meanQ cm : ℚ) : ℝ)) (some mcrit) none none)

/-!
Spec-side definitions, written from the specification's words so that
refinement claims can compare them with the source embedding above.
-/

/-- Root-mean-square error between a model curve evaluated at the table's
angles and the table's measured values, as the specification words it. -/
noncomputable def rmsSpec (f : ℝ → ℝ) (xs ys : List ℝ) : ℝ :=
  Real.sqrt (meanR (List.zipWith (fun x y => (f x - y) ^ 2) xs ys))

/-- Compressibility relation from the specification:
`f(M) = (2/(gamma*M^2)) * (((gamma+1)/(2*(1+0.5*(gamma-1)*M^2)))^(gamma/(1-gamma)) - 1) - Cp0`. -/
noncomputable def specCritF (cp0 M : ℝ) : ℝ :=
  (2 / (gammaAir * M ^ 2)) *
    (((gammaAir + 1) / (2 * (1 + 0.5 * (gammaAir - 1) * M ^ 2))) ^ (gammaAir / (1 - gammaAir)) - 1) - cp0

/-- Deduplication by angle keeping, for each angle, its first occurrence in
table order, as the specification words it. -/
def dedupByFstFirst : List (ℚ × ℚ) → List (ℚ × ℚ)
  | [] => []
  | p :: ps => p :: dedupByFstFirst (ps.filter (fun q => decide (q.1 ≠ p.1)))
termination_by l => l.length
decreasing_by simp_wf; exact Nat.lt_succ_of_le (List.length_filter_le _ _)

/-- Comparison of angle-pressure samples by angle. -/
def leFst (p q : ℚ × ℚ) : Prop := p.1 ≤ q.1

instance : DecidableRel leFst := fun p q => inferInstanceAs (Decidable (p.1 ≤ q.1))

instance : IsTotal (ℚ × ℚ) leFst := ⟨fun p q => le_total p.1 q.1⟩

instance : IsTrans (ℚ × ℚ) leFst := ⟨fun _ _ _ h h2 => le_trans h h2⟩

/-- Angle-pressure samples sorted by angle. -/
def sortPairsByFst (l : List (ℚ × ℚ)) : List (ℚ × ℚ) := List.insertionSort leFst l

/-- The interpolation samples as the specification describes them: pair each
angle with its pressure value, deduplicate by angle keeping the first
occurrence, and sort the deduplicated samples by angle. -/
def specCpSamples (a c5 : List ℚ) : List (ℚ × ℚ) :=
  sortPairsByFst (dedupByFstFirst (a.zip c5))

/-!
Concrete optimizer and root-finder stand-ins and concrete polar tables used
by closed (witness and counterexample) theorems.
-/

/-- Optimizer stand-in that returns its initial guess. -/
def opt0 : MinimizeT := fun _ x0 _ => x0

/-- Root-finder stand-in that returns its starting point. -/
def newt0 : NewtonT := fun _ x0 _ => x0

/-- Root-finder stand-in that returns the constant `2`. -/
def newt2 : NewtonT := fun _ _ _ => 2

/-- The four-column table of the specification's concrete scenario:
`alpha = [-5, 0, 5, 10, 15]`, `cl = [-0.3, 0.1, 0.6, 0.95, 0.9]`,
`cd = [0.01, 0.008, 0.012, 0.03, 0.06]`, `cm` all `0`. -/
def tblC2 : List (List ℚ) :=
  [[-5, -0.3, 0.01, 0], [0, 0.1, 0.008, 0], [5, 0.6, 0.012, 0],
   [10, 0.95, 0.03, 0], [15, 0.9, 0.06, 0]]

/-- Five-column table whose fourth column (the documented moment column) is
constantly `1` while its fifth column is constantly `2`. -/
def tblC3 : List (List ℚ) := [[0, 0, 0, 1, 2], [1, 0, 0, 1, 2], [2, 0, 0, 1, 2]]

/-- Five-row, five-column table: fewer rows than the nine free parameters. -/
def tbl55 : List (List ℚ) :=
  [[0, 0, 0, 0, 0], [1, 0, 0, 0, 0], [2, 0, 0, 0, 0], [3, 0, 0, 0, 0], [4, 0, 0, 0, 0]]

/-- Table that carries a fifth (pressure-coefficient) column and nothing
beyond it. -/
def tblC1 : List (List ℚ) := [[-5, 0, 0, 0, 1], [5, 0, 0, 0, 3]]

/-- Nine-column table, the shape on which `fit_polar` takes the
pressure-coefficient branch. -/
def tbl9w : List (List ℚ) :=
  [[0, 0, 0, 0, 0, 1, 0, 0, 0], [1, 0, 0, 0, 0, 2, 0, 0, 0]]

/-- Default-constructed section, `Section()`. -/
def secDefault : Section := mkSection [] none none none none

/-- Section with `dClda = 1` and `dCl_stall = 1`, satisfying the evaluation
invariants. -/
def secW : Section := mkSection [0, 1, 0, 0, 0, 1, 0, 0, 0] none none none none

/-- Section with `dClda_stall = dClda = 1` and `dCl_stall = 1`. -/
def secW7 : Section := mkSection [0, 1, 0, 0, 1, 1, 0, 0, 0] none none none none

/-!
Claim theorems, with their supporting lemmas.
-/

/-- On parameters satisfying the documented invariants, the fallible
evaluation agrees with the total real-valued one. -/
theorem clChecked_eq_cl (s : Section) (alpha : ℝ) (h1 : s.dClda ≠ 0)
    (h2 : s.dCl_stall ≠ 0) : s.clChecked alpha = some (s.cl alpha) := by
  simp [Section.clChecked, Section.delta_cl_nlChecked, fdiv, h1, h2, Section.cl,
    Section.delta_cl_nl, Option.bind]

/-- C2: the specification asserts that a table with exactly 4 columns
(alpha, cl, cd, cm) is fitted successfully with `M_crit == 0.6`, and in
particular names a concrete 5-row table. The code instead reads the moment
column at index 4, which is out of bounds for a four-column table, so the
fit raises `IndexError` (embedded: returns `none`) on exactly the
specification's concrete scenario — contradicting the source's own
docstring, which declares four-column tables valid with the moment
coefficient in the fourth column. -/
theorem c2_code_fails :
    (∀ r ∈ tblC2, r.length = 4) ∧ Section.fit_polar opt0 newt0 tblC2 = none :=
  ⟨by decide, rfl⟩

/-- C3: the specification says `Cm_const` is the mean of the table's moment
column, the fourth column (index 3). The code computes the mean of column
index 4 instead: on `tblC3`, whose fourth column is constantly 1 and fifth
column constantly 2, the returned `Cm_const` is the mean of column index 4,
namely 2, not the fourth column's mean 1. -/
theorem c3_moment_column :
    (Section.fit_polar opt0 newt0 tblC3).map Section.Cm_const =
      some ((meanQ (colD tblC3 4) : ℚ) : ℝ) ∧
    meanQ (colD tblC3 4) = 2 ∧ meanQ (colD tblC3 3) = 1 :=
  ⟨rfl, by norm_num [meanQ, colD, tblC3], by norm_num [meanQ, colD, tblC3]⟩

/-- C4 counterexample: `tbl55` has five rows, no more than the nine free
parameters, yet `fit_polar` returns a fitted `Section` rather than
rejecting the table — no row-count validation exists in the code. -/
theorem c4_counterexample :
    tbl55.length ≤ 9 ∧ (Section.fit_polar opt0 newt0 tbl55).isSome = true :=
  ⟨by decide, rfl⟩

/-- C4 amended: `fit_polar` performs no row-count validation. Any table
whose rows are rectangular with at least five columns is fitted and a
`Section` is returned, even when the number of rows is at most the number
of free parameters. -/
theorem c4_amended (minimize : MinimizeT) (newton : NewtonT)
    (polar : List (List ℚ)) (hrect : ∀ r ∈ polar, r.length = ncols polar)
    (h5 : 5 ≤ ncols polar) (_hrows : polar.length ≤ 9) :
    ∃ s, Section.fit_polar minimize newton polar = some s := by
  have hcol : ∀ j < ncols polar, getCol polar j = some (colD polar j) := by
    intro j hj
    rw [getCol, if_pos]
    intro r hr
    rw [hrect r hr]
    exact hj
  simp only [Section.fit_polar, hcol 0 (by omega), hcol 1 (by omega), hcol 2 (by omega),
    hcol 4 (by omega), Option.bind_eq_bind, Option.some_bind]
  by_cases h9 : ncols polar = 9
  · rw [if_pos h9, hcol 5 (by omega)]
    exact ⟨_, rfl⟩
  · rw [if_neg h9]
    exact ⟨_, rfl⟩

/-- C4 amended witness: the five-row, five-column table is silently fitted. -/
theorem c4_witness :
    (∀ r ∈ tbl55, r.length = ncols tbl55) ∧ 5 ≤ ncols tbl55 ∧ tbl55.length ≤ 9 ∧
    ∃ s, Section.fit_polar opt0 newt0 tbl55 = some s :=
  ⟨by decide, by decide, by decide,
    c4_amended opt0 newt0 tbl55 (by decide) (by decide) (by decide)⟩

/-- C1 counterexample: `tblC1` carries a fifth (pressure-coefficient)
column, yet `fit_polar` does not hand `M_crit` to the root-finder — the
branch requires nine columns — and instead returns the default `0.6`. With
the constant-2 root-finder stand-in `newt2`, the claimed prescription would
yield `M_crit = 2`, but the code yields `0.6`. -/
theorem c1_counterexample :
    (Section.fit_polar opt0 newt2 tblC1).map Section.M_crit = some ((0.6 : ℝ)) ∧
    (Section.fit_polar opt0 newt2 tblC1).map Section.M_crit ≠
      some (newt2 (critMachF ((cpOfCols (colD tblC1 0) (colD tblC1 4) : ℚ) : ℝ)) 1
        (critMachDf ((cpOfCols (colD tblC1 0) (colD tblC1 4) : ℚ) : ℝ))) := by
  have h1 : (Section.fit_polar opt0 newt2 tblC1).map Section.M_crit = some ((0.6 : ℝ)) := rfl
  refine ⟨h1, ?_⟩
  rw [h1]
  intro h
  have h2 := Option.some.inj h
  simp only [newt2] at h2
  norm_num at h2

/-- C1 amended: the pressure branch is taken exactly when the table has nine
columns; there the pressure coefficient at zero lift is interpolated from
the deduplicated, sorted angle samples against column index 5, and `M_crit`
is the output of the derivative-supplied root-finder started at `M = 1` on
the function `f`, which coincides with the specification's compressibility
relation at `gamma = 1.4`. -/
theorem c1_amended (minimize : MinimizeT) (newton : NewtonT) (polar : List (List ℚ))
    (hrect : ∀ r ∈ polar, r.length = ncols polar) (h9 : ncols polar = 9) :
    ∃ s, Section.fit_polar minimize newton polar = some s ∧
      s.M_crit = newton (critMachF ((cpOfCols (colD polar 0) (colD polar 5) : ℚ) : ℝ)) 1
        (critMachDf ((cpOfCols (colD polar 0) (colD polar 5) : ℚ) : ℝ)) ∧
      ∀ M : ℝ, critMachF ((cpOfCols (colD polar 0) (colD polar 5) : ℚ) : ℝ) M =
        specCritF ((cpOfCols (colD polar 0) (colD polar 5) : ℚ) : ℝ) M := by
  have hcol : ∀ j < ncols polar, getCol polar j = some (colD polar j) := by
    intro j hj
    rw [getCol, if_pos]
    intro r hr
    rw [hrect r hr]
    exact hj
  simp only [Section.fit_polar, hcol 0 (by omega), hcol 1 (by omega), hcol 2 (by omega),
    hcol 4 (by omega), Option.bind_eq_bind, Option.some_bind]
  rw [if_pos h9, hcol 5 (by omega)]
  exact ⟨_, rfl, rfl, fun M => rfl⟩

/-- C1 amended witness: on a concrete nine-column table the branch is taken
and `M_crit` is the root-finder's output. -/
theorem c1_witness :
    (∀ r ∈ tbl9w, r.length = ncols tbl9w) ∧ ncols tbl9w = 9 ∧
    ∃ s, Section.fit_polar opt0 newt0 tbl9w = some s ∧
      s.M_crit = newt0 (critMachF ((cpOfCols (colD tbl9w 0) (colD tbl9w 5) : ℚ) : ℝ)) 1
        (critMachDf ((cpOfCols (colD tbl9w 0) (colD tbl9w 5) : ℚ) : ℝ)) ∧
      ∀ M : ℝ, critMachF ((cpOfCols (colD tbl9w 0) (colD tbl9w 5) : ℚ) : ℝ) M =
        specCritF ((cpOfCols (colD tbl9w 0) (colD tbl9w 5) : ℚ) : ℝ) M :=
  ⟨by decide, by decide, c1_amended opt0 newt0 tbl9w (by decide) (by decide)⟩

/-- C5: the scalar error minimized by `fit_polar` is the sum of the
root-mean-square lift error and the root-mean-square drag error of the model
against the table, the nine optimization variables fill the parameter fields
in the claimed order, the start vector is all ones, and the box bounds are
exactly the nine claimed intervals. -/
theorem c5_error_function_and_bounds (a cl cd : List ℚ) (x : Fin 9 → ℝ) :
    fitError a cl cd x =
      rmsSpec ((sectionOfParams x).cl) (a.map (fun q => (q : ℝ))) (cl.map (fun q => (q : ℝ))) +
      rmsSpec ((sectionOfParams x).cd) (a.map (fun q => (q : ℝ))) (cd.map (fun q => (q : ℝ))) ∧
    (sectionOfParams x).a_0 = x 0 ∧ (sectionOfParams x).dClda = x 1 ∧
    (sectionOfParams x).Cl_max = x 2 ∧ (sectionOfParams x).Cl_min = x 3 ∧
    (sectionOfParams x).dClda_stall = x 4 ∧ (sectionOfParams x).dCl_stall = x 5 ∧
    (sectionOfParams x).Cd_min = x 6 ∧ (sectionOfParams x).Cl_Cd_min = x 7 ∧
    (sectionOfParams x).dCddCl2 = x 8 ∧
    fitStart = (fun _ : Fin 9 => (1 : ℝ)) ∧
    fitBounds = [((-10 : ℝ), (10 : ℝ)), (1, 20), (0, 3), (-3, 0), (-2, 2), (0.1, 0.3),
      (0, 0.5), (-1, 1), (0, 1)] :=
  ⟨rfl, rfl, rfl, rfl, rfl, rfl, rfl, rfl, rfl, rfl, rfl, rfl⟩

/-- C6: for a section with valid parameters, the drag coefficient is the
parabolic polar `Cd_min + dCd_dCl2 * (cl - Cl_at_Cd_min)^2` plus the stall
drag penalty `2 * ((1 - dCl_da_stall/dCl_da) * stall_offset_cl / dCl_da)^2`. -/
theorem c6_cd_decomposition (s : Section) (_h1 : s.dClda ≠ 0)
    (_h2 : 0 < s.dCl_stall) (alpha : ℝ) :
    s.cd alpha = s.Cd_min + s.dCddCl2 * (s.cl alpha - s.Cl_Cd_min) ^ 2 +
      2 * ((1 - s.dClda_stall / s.dClda) * s.delta_cl_nl alpha / s.dClda) ^ 2 :=
  rfl

/-- C6 witness: the decomposition evaluated on a concrete valid section. -/
theorem c6_witness :
    secW.dClda ≠ 0 ∧ 0 < secW.dCl_stall ∧
    secW.cd 0 = secW.Cd_min + secW.dCddCl2 * (secW.cl 0 - secW.Cl_Cd_min) ^ 2 +
      2 * ((1 - secW.dClda_stall / secW.dClda) * secW.delta_cl_nl 0 / secW.dClda) ^ 2 :=
  ⟨one_ne_zero, one_pos, c6_cd_decomposition secW one_ne_zero one_pos 0⟩

/-- C7: the lift coefficient is the linear curve minus the scaled stall
offset, the linear curve is `(alpha - a0) * pi/180 * dCl_da`, and when
`dCl_da_stall = dCl_da` (with nonzero slope) the curve degenerates to the
linear one. -/
theorem c7_cl_structure (s : Section) (alpha : ℝ) :
    s.cl alpha = s.cl_lin alpha - (1 - s.dClda_stall / s.dClda) * s.delta_cl_nl alpha ∧
    s.cl_lin alpha = (alpha - s.a_0) * Real.pi / 180 * s.dClda ∧
    (s.dClda_stall = s.dClda → s.dClda ≠ 0 → s.cl alpha = s.cl_lin alpha) := by
  refine ⟨rfl, rfl, fun he hne => ?_⟩
  rw [Section.cl, he, div_self hne]
  ring

/-- C7 witness: on a section with `dClda_stall = dClda = 1` the lift curve
coincides with the linear curve. -/
theorem c7_witness :
    secW7.dClda_stall = secW7.dClda ∧ secW7.dClda ≠ 0 ∧ secW7.cl 2 = secW7.cl_lin 2 :=
  ⟨rfl, one_ne_zero, (c7_cl_structure secW7 2).2.2 rfl one_ne_zero⟩

/-- C9: every coefficient evaluator leaves the section state unchanged — the
post-call state of each of the six method calls is the received section,
hence every parameter field is unchanged. -/
theorem c9_evaluation_pure (s : Section) (alpha : ℝ) :
    (s.cl_linRun alpha).2 = s ∧ (s.delta_cl_nlRun alpha).2 = s ∧ (s.clRun alpha).2 = s ∧
    (s.cd_linRun alpha).2 = s ∧ (s.delta_cd_nlRun alpha).2 = s ∧ (s.cdRun alpha).2 = s :=
  ⟨rfl, rfl, rfl, rfl, rfl, rfl⟩

/-- C10: `Section()` sets all thirteen fields to `0.` without validation, and
evaluating `cl` on such a section performs the unguarded division
`dClda_stall / dClda` with `dClda = 0`, which raises in Python — the
fallible evaluation returns `none` for every angle, so evaluation is not
total over constructible sections. -/
theorem c10_defaults_unvalidated :
    secDefault = Section.mk 0 0 0 0 0 0 0 0 0 0 0 0 0 ∧
    ∀ alpha : ℝ, secDefault.clChecked alpha = none := by
  refine ⟨rfl, fun alpha => ?_⟩
  simp [secDefault, Section.clChecked, fdiv, mkSection]

/-!
Helper lemmas relating the `np.unique`-with-indices computation of
`fit_polar` to the specification's dedup-then-sort description.
-/

theorem dedupByFstFirst_subset : ∀ l : List (ℚ × ℚ), dedupByFstFirst l ⊆ l := by
  intro l
  induction l using dedupByFstFirst.induct with
  | case1 => simp [dedupByFstFirst]
  | case2 p ps ih =>
    rw [dedupByFstFirst]
    intro q hq
    rcases List.mem_cons.mp hq with h | h
    · exact h ▸ List.mem_cons_self _ _
    · exact List.mem_cons_of_mem _ (List.mem_of_mem_filter (ih h))

theorem nodup_fst_dedupByFstFirst : ∀ l : List (ℚ × ℚ), ((dedupByFstFirst l).map Prod.fst).Nodup := by
  intro l
  induction l using dedupByFstFirst.induct with
  | case1 => simp [dedupByFstFirst]
  | case2 p ps ih =>
    rw [dedupByFstFirst, List.map_cons]
    refine List.nodup_cons.mpr ⟨?_, ih⟩
    intro hmem
    rcases List.mem_map.mp hmem with ⟨q, hq, hfst⟩
    have hq2 := List.mem_filter.mp (dedupByFstFirst_subset _ hq)
    rw [decide_eq_true_eq] at hq2
    exact hq2.2 hfst

theorem mem_fst_dedupByFstFirst : ∀ (l : List (ℚ × ℚ)) (k : ℚ),
    k ∈ (dedupByFstFirst l).map Prod.fst ↔ k ∈ l.map Prod.fst := by
  intro l
  induction l using dedupByFstFirst.induct with
  | case1 => intro k; simp [dedupByFstFirst]
  | case2 p ps ih =>
    intro k
    rw [dedupByFstFirst, List.map_cons, List.map_cons, List.mem_cons, List.mem_cons, ih k]
    simp only [List.mem_map, List.mem_filter, decide_eq_true_eq]
    constructor
    · rintro (h | ⟨q, ⟨hq, _⟩, rfl⟩)
      · exact Or.inl h
      · exact Or.inr ⟨q, hq, rfl⟩
    · rintro (h | ⟨q, hq, rfl⟩)
      · exact Or.inl h
      · by_cases hqp : q.1 = p.1
        · exact Or.inl hqp
        · exact Or.inr ⟨q, ⟨hq, hqp⟩, rfl⟩

theorem find?_of_find?_filter (pred f : ℚ × ℚ → Bool)
    (hpf : ∀ q, f q = false → pred q = false) :
    ∀ (l : List (ℚ × ℚ)) (p : ℚ × ℚ), (l.filter f).find? pred = some p → l.find? pred = some p := by
  intro l
  induction l with
  | nil => intro p h; simp at h
  | cons x xs ih =>
    intro p h
    by_cases hf : f x
    · rw [List.filter_cons_of_pos hf] at h
      by_cases hp : pred x
      · rw [List.find?_cons_of_pos _ hp] at h
        rw [List.find?_cons_of_pos _ hp]
        exact h
      · rw [List.find?_cons_of_neg _ hp] at h
        rw [List.find?_cons_of_neg _ hp]
        exact ih p h
    · have hpx : pred x = false := hpf x (Bool.not_eq_true _ ▸ hf)
      rw [List.filter_cons_of_neg hf] at h
      rw [List.find?_cons_of_neg _ (by simp [hpx])]
      exact ih p h

theorem find?_dedupByFstFirst : ∀ (l : List (ℚ × ℚ)) (p : ℚ × ℚ), p ∈ dedupByFstFirst l →
    l.find? (fun q => decide (q.1 = p.1)) = some p := by
  intro l
  induction l using dedupByFstFirst.induct with
  | case1 => intro p h; simp [dedupByFstFirst] at h
  | case2 x ps ih =>
    intro p hp
    rw [dedupByFstFirst] at hp
    rcases List.mem_cons.mp hp with h | h
    · subst h
      rw [List.find?_cons_of_pos _ (by simp)]
    · have hpf : p ∈ ps.filter (fun q => decide (q.1 ≠ x.1)) := dedupByFstFirst_subset _ h
      have hne : p.1 ≠ x.1 := by
        have := (List.mem_filter.mp hpf).2
        rwa [decide_eq_true_eq] at this
      rw [List.find?_cons_of_neg _
        (by simp only [decide_eq_true_eq]; exact fun hx => hne hx.symm)]
      refine find?_of_find?_filter _ _ ?_ ps p (ih p h)
      intro q hq
      rw [decide_eq_false_iff_not] at hq
      rw [decide_eq_false_iff_not]
      push_neg at hq
      intro hq2
      exact hne (hq2.symm.trans hq)

theorem find?_zip_firstIdx (k : ℚ) : ∀ (a c5 : List ℚ), k ∈ a → a.length = c5.length →
    (a.zip c5).find? (fun q => decide (q.1 = k)) = some (k, c5.getD (firstIdx k a) 0) := by
  intro a
  induction a with
  | nil => intro c5 hk; simp at hk
  | cons x xs ih =>
    intro c5 hk hlen
    cases c5 with
    | nil => simp at hlen
    | cons y ys =>
      rw [List.zip_cons_cons]
      by_cases hx : x = k
      · rw [List.find?_cons_of_pos _ (by simp [hx])]
        rw [firstIdx, if_pos hx, List.getD_cons_zero, hx]
      · rw [List.find?_cons_of_neg _ (by simp [hx])]
        have hk2 : k ∈ xs := by
          rcases List.mem_cons.mp hk with h | h
          · exact absurd h.symm hx
          · exact h
        rw [firstIdx, if_neg hx, List.getD_cons_succ]
        exact ih ys hk2 (by simpa using hlen)

/-- C8: when `fit_polar` takes the pressure branch, the interpolation used to
estimate the pressure coefficient at zero lift runs over exactly the
specification's samples: deduplicate the angle-pressure pairs by angle
keeping each angle's first occurrence, sort them by angle, and interpolate
at zero. -/
theorem c8_dedup_first_occurrence (a c5 : List ℚ) (h : a.length = c5.length) :
    cpOfCols a c5 = npInterp 0 ((specCpSamples a c5).map Prod.fst)
      ((specCpSamples a c5).map Prod.snd) := by
  have hsub : specCpSamples a c5 ⊆ dedupByFstFirst (a.zip c5) := fun p hp =>
    (List.perm_insertionSort leFst _).subset hp
  have hfst : (specCpSamples a c5).map Prod.fst = npUniqueVals a := by
    have hperm : List.Perm ((specCpSamples a c5).map Prod.fst) (npUniqueVals a) := by
      refine ((List.perm_insertionSort leFst _).map Prod.fst).trans ?_
      refine ((List.perm_ext_iff_of_nodup (nodup_fst_dedupByFstFirst _)
        (List.nodup_dedup a)).mpr ?_).trans (List.perm_insertionSort _ _).symm
      intro k
      rw [mem_fst_dedupByFstFirst, List.map_fst_zip _ _ (le_of_eq h), List.mem_dedup]
    have hs1 : List.Sorted (fun p q : ℚ => p ≤ q) ((specCpSamples a c5).map Prod.fst) :=
      List.Pairwise.map Prod.fst (fun p q hpq => hpq) (List.sorted_insertionSort leFst _)
    exact List.eq_of_perm_of_sorted hperm hs1 (List.sorted_insertionSort _ _)
  have hsnd : (specCpSamples a c5).map Prod.snd =
      (npUniqueVals a).map (fun v => c5.getD (firstIdx v a) 0) := by
    have hval : ∀ p ∈ specCpSamples a c5, p.2 = c5.getD (firstIdx p.1 a) 0 := by
      intro p hp
      have hdd : p ∈ dedupByFstFirst (a.zip c5) := hsub hp
      have hmem : p.1 ∈ a := by
        have := List.mem_map_of_mem Prod.fst (dedupByFstFirst_subset _ hdd)
        rwa [List.map_fst_zip _ _ (le_of_eq h)] at this
      have h1 := find?_dedupByFstFirst _ p hdd
      have h2 := find?_zip_firstIdx p.1 a c5 hmem h
      rw [h1] at h2
      exact congrArg Prod.snd (Option.some.inj h2)
    calc (specCpSamples a c5).map Prod.snd
        = (specCpSamples a c5).map (fun p => c5.getD (firstIdx p.1 a) 0) :=
          List.map_congr_left hval
      _ = ((specCpSamples a c5).map Prod.fst).map (fun v => c5.getD (firstIdx v a) 0) := by
          rw [List.map_map]; rfl
      _ = (npUniqueVals a).map (fun v => c5.getD (firstIdx v a) 0) := by rw [hfst]
  rw [cpOfCols, hfst, hsnd]

/-- C8 witness: a concrete angle column with a duplicated angle, whose first
occurrence's pressure value survives into the sorted interpolation samples. -/
theorem c8_witness :
    ([5, 0, 5, -5] : List ℚ).length = ([10, 20, 30, 40] : List ℚ).length ∧
    cpOfCols [5, 0, 5, -5] [10, 20, 30, 40] =
      npInterp 0 ((specCpSamples [5, 0, 5, -5] [10, 20, 30, 40]).map Prod.fst)
        ((specCpSamples [5, 0, 5, -5] [10, 20, 30, 40]).map Prod.snd) :=
  ⟨by decide, c8_dedup_first_occurrence [5, 0, 5, -5] [10, 20, 30, 40] (by decide)⟩

end XRotor
